import Mathlib

set_option maxRecDepth 8192
set_option maxHeartbeats 1600000

/-!
Verification of the Swill RPC server core (src/server/swill) against its
specification. The Python modules are shallowly embedded: pure helpers become
Lean functions, stateful objects become explicit state records with
state-passing operations, and fallible code returns `Except`/`Option`.
-/

namespace Swill

/-! Frame kinds, from src/server/swill/_protocol.py. -/

inductive RequestType
  | message
  | endOfStream
  | metadata
  | cancel
deriving DecidableEq, Repr

def RequestType.toNat : RequestType → Nat
  | .message => 0
  | .endOfStream => 1
  | .metadata => 2
  | .cancel => 3

def RequestType.ofNat? (n : Nat) : Option RequestType :=
  if n = 0 then some .message
  else if n = 1 then some .endOfStream
  else if n = 2 then some .metadata
  else if n = 3 then some .cancel
  else none

inductive ResponseType
  | message
  | endOfStream
  | metadata
  | error
deriving DecidableEq, Repr

def ResponseType.toNat : ResponseType → Nat
  | .message => 0
  | .endOfStream => 1
  | .metadata => 2
  | .error => 3

/-! The `ErrorCode` enum, from src/server/swill/_types.py lines 22-32, as the
list of its member names and values. -/

def errorCodeMembers : List (String × Int) :=
  [("BAD_REQUEST", 400), ("UNAUTHORIZED", 401), ("NOT_FOUND", 404),
   ("FORBIDDEN", 403), ("INVALID_RPC", 501), ("INTERNAL_ERROR", 500)]

/-! Streaming queue, from src/server/swill/_request.py (`_StreamingQueue`).
`anext` embeds `__anext__`: the close event is tested on entry; otherwise
`asyncio.wait` returns the ready tasks and the source inspects the done set in
the order cancel-event, queue-item, close-event. With the state fixed at the
moment of the call, a task is ready exactly when its event is set (or the
queue is non-empty), so the done-set inspection reduces to that priority
order. An empty, unclosed, uncancelled queue blocks. -/

structure StreamingQueueState (α : Type) where
  queue : List α
  closeEventSet : Bool
  cancelEventSet : Bool
deriving DecidableEq, Repr

inductive QueueStep (α : Type)
  | item (x : α)
  | stopAsyncIteration
  | requestCancelled
  | blocked
deriving DecidableEq, Repr

def StreamingQueueState.add {α : Type} (s : StreamingQueueState α) (x : α) :
    StreamingQueueState α :=
  { s with queue := s.queue ++ [x] }

def StreamingQueueState.close {α : Type} (s : StreamingQueueState α) :
    StreamingQueueState α :=
  { s with closeEventSet := true }

def StreamingQueueState.cancel {α : Type} (s : StreamingQueueState α) :
    StreamingQueueState α :=
  { s with cancelEventSet := true }

def StreamingQueueState.anext {α : Type} (s : StreamingQueueState α) :
    QueueStep α × StreamingQueueState α :=
  if s.closeEventSet then (.stopAsyncIteration, s)
  else if s.cancelEventSet then (.requestCancelled, s)
  else
    match s.queue with
    | x :: xs => (.item x, { s with queue := xs })
    | [] => (.blocked, s)

/-- Repeatedly step the queue with `anext`, collecting yielded items until a
non-item step occurs; the fuel bounds the number of iterations. -/
def drainQueue {α : Type} : Nat → StreamingQueueState α → List α × QueueStep α
  | 0, _ => ([], .blocked)
  | fuel + 1, s =>
    match s.anext with
    | (.item x, s1) =>
      let r := drainQueue fuel s1
      (x :: r.1, r.2)
    | (step, _) => ([], step)

/-! Metadata values. `Metadata = Dict[str, Any]` in src/server/swill/_types.py;
the payload side of a metadata entry is opaque to every operation modelled
here, so entries are string keys paired with natural-number value tags. -/

abbrev Metadata := List (String × Nat)

/-! Response object, from src/server/swill/_response.py. The `Response` holds
a leading-metadata slot, a sent flag, and a trailing-metadata slot; operations
return the updated state, and the fallible ones return `Except` mirroring the
raised SwillResponseError. -/

structure ResponseState where
  leadingMetadata : Option Metadata
  leadingMetadataSent : Bool
  trailingMetadata : Option Metadata
deriving DecidableEq, Repr

def ResponseState.initial : ResponseState :=
  { leadingMetadata := none, leadingMetadataSent := false, trailingMetadata := none }

/-- Embeds `Response.consume_leading_metadata`: returns the stored metadata and
marks it sent on the first call, returns nothing afterwards. -/
def consume_leading_metadata (s : ResponseState) :
    Option Metadata × ResponseState :=
  if s.leadingMetadataSent then (none, s)
  else (s.leadingMetadata, { s with leadingMetadataSent := true })

/-- A frame sent by `Response.send_leading_metadata`: an isolated METADATA
envelope carrying the consumed leading metadata. -/
structure MetadataFrame where
  seq : Int
  rtype : ResponseType
  leadingMetadata : Option Metadata
deriving DecidableEq, Repr

/-- Embeds `Response.send_leading_metadata`: raises SwillResponseError when the
metadata was already sent, otherwise emits one METADATA frame built from
`consume_leading_metadata` output. -/
def send_leading_metadata (s : ResponseState) (seq : Int) :
    Except Unit (MetadataFrame × ResponseState) :=
  if s.leadingMetadataSent then .error ()
  else
    let c := consume_leading_metadata s
    .ok ({ seq := seq, rtype := .metadata, leadingMetadata := c.1 }, c.2)

/-- Embeds `Response.set_leading_metadata`: raises SwillResponseError when the
metadata was already sent, otherwise stores the metadata and optionally sends
it immediately. -/
def set_leading_metadata (s : ResponseState) (seq : Int) (m : Metadata)
    (sendImmediately : Bool) :
    Except Unit (ResponseState × Option MetadataFrame) :=
  if s.leadingMetadataSent then .error ()
  else
    let s1 := { s with leadingMetadata := some m }
    if sendImmediately then
      match send_leading_metadata s1 seq with
      | .error e => .error e
      | .ok fs => .ok (fs.2, some fs.1)
    else .ok (s1, none)

def ResponseState.set_trailing_metadata (s : ResponseState) (m : Metadata) :
    ResponseState :=
  { s with trailingMetadata := some m }

/-! Constraint-check primitives, from src/server/swill/validators.py lines
54-71. Each embeds the corresponding `_check_*` function: `.error msg` stands
for `raise ValueError(msg)` and `.ok ()` for a silent return. -/

def check_gt (gt : Int) (value : Int) : Except String Unit :=
  if value < gt then .error ("less than or equal to " ++ toString gt)
  else .ok ()

def check_ge (ge : Int) (value : Int) : Except String Unit :=
  if value ≤ ge then .error ("less than " ++ toString ge)
  else .ok ()

def check_lt (lt : Int) (value : Int) : Except String Unit :=
  if value > lt then .error ("greater than or equal to " ++ toString lt)
  else .ok ()

def check_le (le : Int) (value : Int) : Except String Unit :=
  if value > le then .error ("greater than " ++ toString le)
  else .ok ()

/-! Exception classes. Python dispatches exceptions by their exact class
(`exception.__class__`), so the embedding carries the class of each raised
exception explicitly. `errSubclass n` stands for an arbitrary user-defined
proper subclass of `Error`, and `other n` for any further class. -/

inductive ExcClass
  | baseException
  | handlerNotFound
  | error
  | swillValidationError
  | swillRequestError
  | swillResponseError
  | swillRequestCancelled
  | unboundLocalError
  | runtimeError
  | errSubclass (n : Nat)
  | other (n : Nat)
deriving DecidableEq, Repr

/-- Per-field descriptor entries of `SwillValidationError.data`, from
src/server/swill/_exceptions.py: either `\x7bdescription: str\x7d` or an
`index`-tagged nested list of descriptors. -/
inductive ExcDescr
  | description (s : String)
  | indexed (index : Nat) (errors : List ExcDescr)

/-- A raised Python exception as the dispatcher sees it: its exact class, the
`code` attribute (meaningful for `Error` and `SwillValidationError`), the
`str(exception)` text, and the `data` attribute of a validation error. -/
structure PyExc where
  cls : ExcClass
  code : Int
  message : String
  data : Option (List (String × List ExcDescr))

/-! Outbound envelopes. `serialize_error_response`
(src/server/swill/_serialize.py lines 70-81) builds an EncapsulatedResponse of
type ERROR whose data payload is an `ErrorMessage(code, message, data)`;
ordinary MESSAGE envelopes carry the serialized handler result instead. -/

structure ErrorMessage where
  code : Int
  message : String
  data : Option (List (String × List ExcDescr))

inductive ResponsePayload
  | result (tag : Nat)
  | err (e : ErrorMessage)

structure OutEnvelope where
  seq : Int
  rtype : ResponseType
  data : ResponsePayload
  leadingMetadata : Option Metadata
  trailingMetadata : Option Metadata

/-- Embeds `serialize_error_response`: an ERROR envelope for the given seq with
an ErrorMessage payload and no metadata. -/
def serialize_error_response (message : String) (code : Int) (seq : Int)
    (data : Option (List (String × List ExcDescr))) : OutEnvelope :=
  { seq := seq, rtype := .error,
    data := .err { code := code, message := message, data := data },
    leadingMetadata := none, trailingMetadata := none }

/-! Exception handlers, from src/server/swill/_handlers.py lines 101-129 and
the `Swill._exception_handlers` class attribute (src/server/swill/app.py lines
36-40). The map has exactly the keys BaseException, HandlerNotFound and Error. -/

inductive ExcHandler
  | catchAll
  | notFound
  | appError
deriving DecidableEq, Repr

def exceptionHandlers : List (ExcClass × ExcHandler) :=
  [(.baseException, .catchAll), (.handlerNotFound, .notFound), (.error, .appError)]

/-- Runs one registered exception handler on the exception and the offending
request's seq, producing the envelope it enqueues on the connection. -/
def runExcHandler (h : ExcHandler) (exc : PyExc) (seq : Int) : OutEnvelope :=
  match h with
  | .catchAll =>
    serialize_error_response "An internal server error occurred" 500 seq none
  | .notFound => serialize_error_response exc.message 404 seq none
  | .appError => serialize_error_response exc.message exc.code seq none

/-- Embeds `Swill._handle_exception`: exact-class lookup in
`_exception_handlers`, falling back to the BaseException entry. -/
def handle_exception (exc : PyExc) (seq : Int) : OutEnvelope :=
  match exceptionHandlers.lookup exc.cls with
  | some h => runExcHandler h exc seq
  | none => runExcHandler .catchAll exc seq

/-! Frame routing, from `Swill._handle_request`
(src/server/swill/app.py lines 173-259). The model covers the routing of a
decoded envelope against the connection's live-call map and the handler
registry; the branches that feed an existing call or invoke a freshly created
handler are represented by their outcome markers, since every property proved
here conditions on the envelope missing both. -/

structure RequestEnvelope where
  seq : Int
  rpc : String
  rtype : RequestType
deriving DecidableEq, Repr

abbrev RequestReference := String × Int

inductive RouteOutcome
  | fedExisting
  | droppedUnknown
  | newCallErrored
  | startedCall
deriving DecidableEq, Repr

/-- Embeds the routing part of `Swill._handle_request`: a frame for a live
`(rpc, seq)` key is fed to that call; a CANCEL or END_OF_STREAM frame for an
unknown key is logged and dropped; otherwise `_create_request` raises
HandlerNotFound when the rpc is unregistered, which `_handle_exception` turns
into a single NOT_FOUND error envelope (the `finally` block leaves the
live-call map unchanged because the reference was never installed); a
registered rpc starts a new call. Returns the envelopes enqueued by the
routing step and the outcome marker. -/
def handle_request (registry : List String) (live : List RequestReference)
    (env : RequestEnvelope) : List OutEnvelope × RouteOutcome :=
  if (env.rpc, env.seq) ∈ live then ([], .fedExisting)
  else if env.rtype = .cancel ∨ env.rtype = .endOfStream then
    ([], .droppedUnknown)
  else if env.rpc ∈ registry then ([], .startedCall)
  else
    ([handle_exception
        { cls := .handlerNotFound, code := 0,
          message := "No func was found to process this request", data := none }
        env.seq],
     .newCallErrored)

/-! Unary response processing, from `Swill._process_single_response`
(src/server/swill/app.py lines 280-308). The Python local `result` is bound
only when the awaited coroutine returns; when the coroutine raises
SwillRequestCancelled the exception is swallowed and `result` stays unbound,
so the later `before_response_message` call raises UnboundLocalError unless
the cancelled check returned first. Exceptions escaping the body are caught by
`_handle_request` and routed through `_handle_exception`. -/

inductive HandlerOutcome
  | returns (v : Nat)
  | raisesRequestCancelled
  | raises (e : PyExc)

def process_single_response (outcome : HandlerOutcome) (cancelled : Bool)
    (seq : Int) (resp : ResponseState) : Except PyExc (Option OutEnvelope) :=
  match outcome with
  | .raises e => .error e
  | _ =>
    let result : Option Nat :=
      match outcome with
      | .returns v => some v
      | _ => none
    if cancelled then .ok none
    else
      match result with
      | none =>
        .error { cls := .unboundLocalError, code := 0,
                 message := "local variable referenced before assignment",
                 data := none }
      | some v =>
        .ok (some
          { seq := seq, rtype := .message, data := .result v,
            leadingMetadata := (consume_leading_metadata resp).1,
            trailingMetadata := resp.trailingMetadata })

/-- The envelopes a unary call puts on the wire: `_handle_request` awaits
`_process_single_response` and routes any escaping exception through
`_handle_exception`. -/
def unaryCallFrames (outcome : HandlerOutcome) (cancelled : Bool) (seq : Int)
    (resp : ResponseState) : List OutEnvelope :=
  match process_single_response outcome cancelled seq resp with
  | .ok none => []
  | .ok (some f) => [f]
  | .error e => [handle_exception e seq]

/-! Record validation, from `ValidatedStruct.__validate__`
(src/server/swill/validators.py lines 376-426) together with
`SwillValidationError.__init__` (src/server/swill/_exceptions.py lines 36-58).
Field values are integers or integer sequences (the shapes the constraint
primitives above apply to), with `whole` standing for the record itself when a
validator declares no field name. Callback exceptions are the `ValueError`
messages the `_check_*` primitives raise, so a collected exception turns into
a `\x7bdescription\x7d` descriptor. -/

inductive FieldVal
  | int (i : Int)
  | arr (xs : List Int)
  | whole
deriving DecidableEq, Repr

structure ValidatorDefinition where
  fields : List String
  each : Bool
  optional : Bool
  check : FieldVal → Except String Unit

/-- Embeds the `SwillValidationError.__init__` data construction: each
collected `(field, index, exception)` item appends a descriptor to the
`field` entry of the mapping (an empty field name maps to `*`); an indexed
item is wrapped as `\x7bindex, errors\x7d`. -/
def buildValidationErrorData
    (items : List (String × Option Nat × String)) :
    List (String × List ExcDescr) :=
  items.foldl
    (fun d item =>
      let field := if item.1 = "" then "*" else item.1
      let excData : ExcDescr :=
        match item.2.1 with
        | some n => .indexed n [.description item.2.2]
        | none => .description item.2.2
      if (d.lookup field).isSome then
        d.map (fun p => if p.1 = field then (p.1, p.2 ++ [excData]) else p)
      else d ++ [(field, [excData])])
    []

/-- The inner `for n, item in enumerate(items)` loop of `__validate__`: run
the callback on each item, collecting `(field, index, message)` for each
failure; when `all_exceptions` is false the loop breaks after the first
failure (the break leaves only this innermost loop). -/
def runValidatorItems (allErrors : Bool) (vdef : ValidatorDefinition)
    (field : String) : List FieldVal → Nat → List (String × Option Nat × String)
  | [], _ => []
  | item :: rest, n =>
    match vdef.check item with
    | .ok _ => runValidatorItems allErrors vdef field rest (n + 1)
    | .error msg =>
      let entry := (field, if vdef.each then some n else none, msg)
      if allErrors then entry :: runValidatorItems allErrors vdef field rest (n + 1)
      else [entry]

/-- One `for field in fields` iteration of `__validate__`: build the items
list (the whole record for an empty field name, the elements of the field for
`each`, the field value otherwise), skip the field when it is optional and
still equal to its class-level default, and run the items loop. -/
def runValidatorField (allErrors : Bool) (vdef : ValidatorDefinition)
    (get : String → FieldVal) (classDefault : String → Option FieldVal)
    (field : String) : List (String × Option Nat × String) :=
  if field = "" then runValidatorItems allErrors vdef field [.whole] 0
  else
    let fieldItem := get field
    let items : List FieldVal :=
      if vdef.each then
        match fieldItem with
        | .arr xs => xs.map .int
        | _ => []
      else [fieldItem]
    if vdef.optional ∧ classDefault field = some fieldItem then []
    else runValidatorItems allErrors vdef field items 0

/-- Embeds `ValidatedStruct.__validate__`: every validator definition runs
over each of its fields, failures accumulate across definitions, and a
non-empty collection raises one SwillValidationError built from all of them.
`allErrors` is the evaluated `return_all_errors` opt-in of the record's
`Meta`. -/
def validateStruct (allErrors : Bool) (validators : List ValidatorDefinition)
    (get : String → FieldVal) (classDefault : String → Option FieldVal) :
    Except (List (String × List ExcDescr)) Unit :=
  let exceptions :=
    validators.foldl
      (fun acc vdef =>
        acc ++ vdef.fields.foldl
          (fun acc2 field =>
            acc2 ++ runValidatorField allErrors vdef get classDefault field)
          [])
      []
  if exceptions.isEmpty then .ok () else .error (buildValidationErrorData exceptions)

/-! WebSocket handshake, from `AsgiApplication._websocket_handshake`
(src/server/swill/asgi.py lines 68-105) and `ConnectionData`
(src/server/swill/_connection.py lines 38-62). Attribute access on the
connection-data object is resolved against the attribute names its `__init__`
defines; an access to a missing name raises AttributeError, which nothing in
the handshake catches. -/

def connectionDataAttrs : List String := ["request", "response"]

structure CloseConnection where
  code : Int
  reason : String
deriving DecidableEq, Repr

/-- Embeds `ConnectionData.choose_subprotocol`: the advertised subprotocol is
the literal `swill/1`; when the client's offer does not contain it a
CloseConnection with code 406 is raised. -/
def choose_subprotocol (offered : List String) : Except CloseConnection String :=
  if "swill/1" ∈ offered then .ok "swill/1"
  else .error { code := 406, reason := "No suitable subprotocol" }

inductive TransportWrite
  | httpResponseStart (status : Int)
  | httpResponseBody (body : String)
  | websocketAccept (subprotocol : String)
deriving DecidableEq, Repr

inductive HandshakeResult
  | accepted
  | refused
  | uncaught (excName : String)
deriving DecidableEq, Repr

/-- Embeds `AsgiApplication._websocket_handshake` after a `websocket.connect`
event: a successful subprotocol negotiation accepts the websocket; a
CloseConnection is handled by a branch whose every path first dereferences
`connection_data.http_response`, an attribute `ConnectionData.__init__` never
defines, so the except-branch raises AttributeError before any transport
write (were the attribute present, the source would write
`http.response.start` with the status — the close code when below 1000, 403
when the stored status is not above 299 — followed by `http.response.body`). -/
def websocket_handshake (offered : List String) :
    List TransportWrite × HandshakeResult :=
  match choose_subprotocol offered with
  | .ok sub => ([.websocketAccept sub], .accepted)
  | .error e =>
    if "http_response" ∈ connectionDataAttrs then
      ([.httpResponseStart (if e.code < 1000 then e.code else 403),
        .httpResponseBody e.reason], .refused)
    else ([], .uncaught "AttributeError")

/-! MessagePack codec. src/server/swill/_serialize.py encodes and decodes the
envelopes with `msgspec.msgpack`; the wire behaviour of that encoder on the
value domain the envelopes use (nil, booleans, integers, strings, binary,
arrays, maps) is embedded here. A byte is a natural number below 256; strings
are carried as their UTF-8 byte lists. The encoder emits the shortest msgpack
representation, as msgspec does; the parser accepts every representation. -/

inductive MsgVal
  | nil
  | bool (b : Bool)
  | int (i : Int)
  | str (s : List Nat)
  | bin (b : List Nat)
  | arr (vs : List MsgVal)
  | map (ps : List (MsgVal × MsgVal))

/-- Big-endian bytes of `n`, exactly `k` of them (most significant first). -/
def beBytes : Nat → Nat → List Nat
  | 0, _ => []
  | k + 1, n => beBytes k (n / 256) ++ [n % 256]

/-- The value of a big-endian byte list. -/
def beVal : List Nat → Nat
  | [] => 0
  | b :: bs => b * 256 ^ bs.length + beVal bs

def encInt (i : Int) : List Nat :=
  if 0 ≤ i then
    let n := i.toNat
    if n < 128 then [n]
    else if n < 256 then [0xcc, n]
    else if n < 65536 then 0xcd :: beBytes 2 n
    else if n < 4294967296 then 0xce :: beBytes 4 n
    else if n < 18446744073709551616 then 0xcf :: beBytes 8 n
    else []
  else
    if -32 ≤ i then [(i + 256).toNat]
    else if -128 ≤ i then [0xd0, (i + 256).toNat]
    else if -32768 ≤ i then 0xd1 :: beBytes 2 (i + 65536).toNat
    else if -2147483648 ≤ i then 0xd2 :: beBytes 4 (i + 4294967296).toNat
    else if -9223372036854775808 ≤ i then
      0xd3 :: beBytes 8 (i + 18446744073709551616).toNat
    else []

def encStrHeader (n : Nat) : List Nat :=
  if n < 32 then [0xa0 + n]
  else if n < 256 then [0xd9, n]
  else if n < 65536 then 0xda :: beBytes 2 n
  else 0xdb :: beBytes 4 n

def encBinHeader (n : Nat) : List Nat :=
  if n < 256 then [0xc4, n]
  else if n < 65536 then 0xc5 :: beBytes 2 n
  else 0xc6 :: beBytes 4 n

def encArrHeader (n : Nat) : List Nat :=
  if n < 16 then [0x90 + n]
  else if n < 65536 then 0xdc :: beBytes 2 n
  else 0xdd :: beBytes 4 n

def encMapHeader (n : Nat) : List Nat :=
  if n < 16 then [0x80 + n]
  else if n < 65536 then 0xde :: beBytes 2 n
  else 0xdf :: beBytes 4 n

mutual

def msgEncode : MsgVal → List Nat
  | .nil => [0xc0]
  | .bool false => [0xc2]
  | .bool true => [0xc3]
  | .int i => encInt i
  | .str s => encStrHeader s.length ++ s
  | .bin b => encBinHeader b.length ++ b
  | .arr vs => encArrHeader vs.length ++ msgEncodeList vs
  | .map ps => encMapHeader ps.length ++ msgEncodePairs ps

def msgEncodeList : List MsgVal → List Nat
  | [] => []
  | v :: vs => msgEncode v ++ msgEncodeList vs

def msgEncodePairs : List (MsgVal × MsgVal) → List Nat
  | [] => []
  | (k, v) :: ps => msgEncode k ++ msgEncode v ++ msgEncodePairs ps

end

/-! Well-formedness: the value fits the msgpack format limits (64-bit
integers, 32-bit lengths). `msgspec` raises on anything larger. -/

mutual

def MsgVal.wf : MsgVal → Bool
  | .nil => true
  | .bool _ => true
  | .int i => decide (-9223372036854775808 ≤ i ∧ i < 18446744073709551616)
  | .str s => decide (s.length < 4294967296)
  | .bin b => decide (b.length < 4294967296)
  | .arr vs => decide (vs.length < 4294967296) && msgWfList vs
  | .map ps => decide (ps.length < 4294967296) && msgWfPairs ps

def msgWfList : List MsgVal → Bool
  | [] => true
  | v :: vs => v.wf && msgWfList vs

def msgWfPairs : List (MsgVal × MsgVal) → Bool
  | [] => true
  | (k, v) :: ps => k.wf && v.wf && msgWfPairs ps

end

/-! The node count of a value bounds the recursion depth the parser needs. -/

mutual

def MsgVal.size : MsgVal → Nat
  | .arr vs => 1 + msgSizeList vs
  | .map ps => 1 + msgSizePairs ps
  | _ => 1

def msgSizeList : List MsgVal → Nat
  | [] => 0
  | v :: vs => v.size + msgSizeList vs

def msgSizePairs : List (MsgVal × MsgVal) → Nat
  | [] => 0
  | (k, v) :: ps => k.size + v.size + msgSizePairs ps

end

/-- Take exactly `n` bytes off the front, failing when fewer remain. -/
def readN (n : Nat) (b : List Nat) : Option (List Nat × List Nat) :=
  if n ≤ b.length then some (b.take n, b.drop n) else none

/-! Small continuations shared by the parser's format branches. -/

def strResult : Option (List Nat × List Nat) → Option (MsgVal × List Nat)
  | some (s, rest) => some (.str s, rest)
  | none => none

def binResult : Option (List Nat × List Nat) → Option (MsgVal × List Nat)
  | some (s, rest) => some (.bin s, rest)
  | none => none

def arrResult : Option (List MsgVal × List Nat) → Option (MsgVal × List Nat)
  | some (vs, rest) => some (.arr vs, rest)
  | none => none

def mapResult :
    Option (List (MsgVal × MsgVal) × List Nat) → Option (MsgVal × List Nat)
  | some (ps, rest) => some (.map ps, rest)
  | none => none

/-- Unsigned big-endian integer of `k` bytes. -/
def parseUintBE (k : Nat) (b : List Nat) : Option (MsgVal × List Nat) :=
  match readN k b with
  | some (lb, b1) => some (.int (beVal lb : Int), b1)
  | none => none

/-- Two's-complement signed big-endian integer of `k` bytes. -/
def parseIntBE (k : Nat) (b : List Nat) : Option (MsgVal × List Nat) :=
  match readN k b with
  | some (lb, b1) =>
    some (.int (if beVal lb < 256 ^ k / 2 then (beVal lb : Int)
                else (beVal lb : Int) - 256 ^ k), b1)
  | none => none

def parseUint8 (b : List Nat) : Option (MsgVal × List Nat) :=
  match b with
  | n :: b1 => some (.int (n : Int), b1)
  | [] => none

def parseInt8 (b : List Nat) : Option (MsgVal × List Nat) :=
  match b with
  | n :: b1 => some (.int (if n < 128 then (n : Int) else (n : Int) - 256), b1)
  | [] => none

/-- String whose one-byte length prefixes its contents. -/
def parseStr8 (b : List Nat) : Option (MsgVal × List Nat) :=
  match b with
  | n :: b1 => strResult (readN n b1)
  | [] => none

/-- String whose `k`-byte big-endian length prefixes its contents. -/
def parseStrBE (k : Nat) (b : List Nat) : Option (MsgVal × List Nat) :=
  match readN k b with
  | some (lb, b1) => strResult (readN (beVal lb) b1)
  | none => none

def parseBin8 (b : List Nat) : Option (MsgVal × List Nat) :=
  match b with
  | n :: b1 => binResult (readN n b1)
  | [] => none

def parseBinBE (k : Nat) (b : List Nat) : Option (MsgVal × List Nat) :=
  match readN k b with
  | some (lb, b1) => binResult (readN (beVal lb) b1)
  | none => none

mutual

/-- Parse one msgpack value, returning it with the unconsumed remainder; the
fuel bounds the nesting the parser will follow. -/
def parseF : Nat → List Nat → Option (MsgVal × List Nat)
  | 0, _ => none
  | _ + 1, [] => none
  | fuel + 1, c :: b =>
    if c < 0x80 then some (.int (c : Int), b)
    else if c < 0x90 then mapResult (parseMapF fuel (c - 0x80) b)
    else if c < 0xa0 then arrResult (parseArrF fuel (c - 0x90) b)
    else if c < 0xc0 then strResult (readN (c - 0xa0) b)
    else if c < 0xe0 then
      if c = 0xc0 then some (.nil, b)
      else if c = 0xc2 then some (.bool false, b)
      else if c = 0xc3 then some (.bool true, b)
      else if c = 0xc4 then parseBin8 b
      else if c = 0xc5 then parseBinBE 2 b
      else if c = 0xc6 then parseBinBE 4 b
      else if c = 0xcc then parseUint8 b
      else if c = 0xcd then parseUintBE 2 b
      else if c = 0xce then parseUintBE 4 b
      else if c = 0xcf then parseUintBE 8 b
      else if c = 0xd0 then parseInt8 b
      else if c = 0xd1 then parseIntBE 2 b
      else if c = 0xd2 then parseIntBE 4 b
      else if c = 0xd3 then parseIntBE 8 b
      else if c = 0xd9 then parseStr8 b
      else if c = 0xda then parseStrBE 2 b
      else if c = 0xdb then parseStrBE 4 b
      else if c = 0xdc then
        match readN 2 b with
        | some (lb, b1) => arrResult (parseArrF fuel (beVal lb) b1)
        | none => none
      else if c = 0xdd then
        match readN 4 b with
        | some (lb, b1) => arrResult (parseArrF fuel (beVal lb) b1)
        | none => none
      else if c = 0xde then
        match readN 2 b with
        | some (lb, b1) => mapResult (parseMapF fuel (beVal lb) b1)
        | none => none
      else if c = 0xdf then
        match readN 4 b with
        | some (lb, b1) => mapResult (parseMapF fuel (beVal lb) b1)
        | none => none
      else none
    else some (.int ((c : Int) - 256), b)
termination_by fuel _ => (fuel, 0, 0)

/-- Parse `n` consecutive msgpack values (the elements of an array). -/
def parseArrF : Nat → Nat → List Nat → Option (List MsgVal × List Nat)
  | _, 0, b => some ([], b)
  | fuel, n + 1, b =>
    match parseF fuel b with
    | some (v, b1) =>
      match parseArrF fuel n b1 with
      | some (vs, b2) => some (v :: vs, b2)
      | none => none
    | none => none
termination_by fuel n _ => (fuel, n, 1)

/-- Parse `n` consecutive key-value pairs (the entries of a map). -/
def parseMapF : Nat → Nat → List Nat → Option (List (MsgVal × MsgVal) × List Nat)
  | _, 0, b => some ([], b)
  | fuel, n + 1, b =>
    match parseF fuel b with
    | some (k, b1) =>
      match parseF fuel b1 with
      | some (v, b2) =>
        match parseMapF fuel n b2 with
        | some (ps, b3) => some ((k, v) :: ps, b3)
        | none => none
      | none => none
    | none => none
termination_by fuel n _ => (fuel, n, 1)

end

/-! Helper lemmas about the byte-level primitives. -/

theorem length_beBytes (k n : Nat) : (beBytes k n).length = k := by
  induction k generalizing n with
  | zero => rfl
  | succ k ih => simp [beBytes, ih]

theorem beVal_append_last (xs : List Nat) (d : Nat) :
    beVal (xs ++ [d]) = beVal xs * 256 + d := by
  induction xs with
  | nil => simp [beVal]
  | cons b bs ih =>
    show beVal (b :: (bs ++ [d])) = beVal (b :: bs) * 256 + d
    rw [beVal, beVal, ih, List.length_append]
    simp only [List.length_cons, List.length_nil, Nat.zero_add, pow_succ]
    ring

theorem beVal_beBytes (k n : Nat) : beVal (beBytes k n) = n % 256 ^ k := by
  induction k generalizing n with
  | zero => simp [beBytes, beVal, Nat.mod_one]
  | succ k ih =>
    rw [beBytes, beVal_append_last, ih, pow_succ]
    conv_rhs => rw [mul_comm, Nat.mod_mul]
    ring

theorem beVal_beBytes_eq (k n : Nat) (h : n < 256 ^ k) :
    beVal (beBytes k n) = n := by
  rw [beVal_beBytes, Nat.mod_eq_of_lt h]

theorem readN_append (n : Nat) (xs rest : List Nat) (h : xs.length = n) :
    readN n (xs ++ rest) = some (xs, rest) := by
  subst h
  simp [readN, List.take_left, List.drop_left]

theorem size_pos (v : MsgVal) : 1 ≤ v.size := by
  cases v <;> simp [MsgVal.size]

/-- Reading a `k`-byte big-endian length followed by more bytes. -/
theorem readN_beBytes (k n : Nat) (rest : List Nat) (h : n < 256 ^ k) :
    (readN k (beBytes k n ++ rest)).map (fun p => (beVal p.1, p.2)) =
      some (n, rest) := by
  rw [readN_append k (beBytes k n) rest (length_beBytes k n)]
  simp [beVal_beBytes_eq k n h]

/-! One lemma per msgpack format, evaluating the parser on bytes that start
with that format. -/

theorem parseF_fixint (fuel n : Nat) (b : List Nat) (h : n < 128) :
    parseF (fuel + 1) (n :: b) = some (.int (n : Int), b) := by
  rw [parseF]
  rw [if_pos h]

theorem parseF_nil (fuel : Nat) (b : List Nat) :
    parseF (fuel + 1) (0xc0 :: b) = some (.nil, b) := by
  rw [parseF]
  norm_num

theorem parseF_false (fuel : Nat) (b : List Nat) :
    parseF (fuel + 1) (0xc2 :: b) = some (.bool false, b) := by
  rw [parseF]
  norm_num

theorem parseF_true (fuel : Nat) (b : List Nat) :
    parseF (fuel + 1) (0xc3 :: b) = some (.bool true, b) := by
  rw [parseF]
  norm_num

theorem parseF_uint8 (fuel n : Nat) (b : List Nat) :
    parseF (fuel + 1) (0xcc :: n :: b) = some (.int (n : Int), b) := by
  rw [parseF]
  norm_num [parseUint8]

theorem parseF_uint16 (fuel n : Nat) (b : List Nat) (h : n < 65536) :
    parseF (fuel + 1) (0xcd :: (beBytes 2 n ++ b)) = some (.int (n : Int), b) := by
  have hr := readN_append 2 (beBytes 2 n) b (length_beBytes 2 n)
  have hv := beVal_beBytes_eq 2 n (by norm_num at h ⊢; omega)
  rw [parseF]
  norm_num [parseUintBE, hr, hv]

theorem parseF_uint32 (fuel n : Nat) (b : List Nat) (h : n < 4294967296) :
    parseF (fuel + 1) (0xce :: (beBytes 4 n ++ b)) = some (.int (n : Int), b) := by
  have hr := readN_append 4 (beBytes 4 n) b (length_beBytes 4 n)
  have hv := beVal_beBytes_eq 4 n (by norm_num at h ⊢; omega)
  rw [parseF]
  norm_num [parseUintBE, hr, hv]

theorem parseF_uint64 (fuel n : Nat) (b : List Nat)
    (h : n < 18446744073709551616) :
    parseF (fuel + 1) (0xcf :: (beBytes 8 n ++ b)) = some (.int (n : Int), b) := by
  have hr := readN_append 8 (beBytes 8 n) b (length_beBytes 8 n)
  have hv := beVal_beBytes_eq 8 n (by norm_num at h ⊢; omega)
  rw [parseF]
  norm_num [parseUintBE, hr, hv]

theorem parseF_negfixint (fuel : Nat) (i : Int) (b : List Nat)
    (h1 : -32 ≤ i) (h2 : i < 0) :
    parseF (fuel + 1) ((i + 256).toNat :: b) = some (.int i, b) := by
  have hc1 : ¬ ((i + 256).toNat < 128) := by omega
  have hc2 : ¬ ((i + 256).toNat < 144) := by omega
  have hc3 : ¬ ((i + 256).toNat < 160) := by omega
  have hc4 : ¬ ((i + 256).toNat < 192) := by omega
  have hc5 : ¬ ((i + 256).toNat < 224) := by omega
  have hv : ((i + 256).toNat : Int) - 256 = i := by omega
  rw [parseF]
  rw [if_neg hc1, if_neg hc2, if_neg hc3, if_neg hc4, if_neg hc5, hv]

theorem parseF_int8 (fuel : Nat) (i : Int) (b : List Nat)
    (h1 : -128 ≤ i) (h2 : i < -32) :
    parseF (fuel + 1) (0xd0 :: (i + 256).toNat :: b) = some (.int i, b) := by
  have hn : ¬ ((i + 256).toNat < 128) := by omega
  have hv : ((i + 256).toNat : Int) - 256 = i := by omega
  rw [parseF]
  norm_num [parseInt8, hn, hv]
  omega

theorem parseF_int16 (fuel : Nat) (i : Int) (b : List Nat)
    (h1 : -32768 ≤ i) (h2 : i < -128) :
    parseF (fuel + 1) (0xd1 :: (beBytes 2 (i + 65536).toNat ++ b)) =
      some (.int i, b) := by
  have hr := readN_append 2 (beBytes 2 (i + 65536).toNat) b (length_beBytes 2 _)
  have hv := beVal_beBytes_eq 2 (i + 65536).toNat (by norm_num; omega)
  have hge : ¬ ((i + 65536).toNat < 256 ^ 2 / 2) := by norm_num; omega
  have hi : ((i + 65536).toNat : Int) - 256 ^ 2 = i := by norm_num; omega
  rw [parseF]
  norm_num [parseIntBE, hr, hv, hge] at hi ⊢
  omega

theorem parseF_int32 (fuel : Nat) (i : Int) (b : List Nat)
    (h1 : -2147483648 ≤ i) (h2 : i < -32768) :
    parseF (fuel + 1) (0xd2 :: (beBytes 4 (i + 4294967296).toNat ++ b)) =
      some (.int i, b) := by
  have hr := readN_append 4 (beBytes 4 (i + 4294967296).toNat) b (length_beBytes 4 _)
  have hv := beVal_beBytes_eq 4 (i + 4294967296).toNat (by norm_num; omega)
  have hge : ¬ ((i + 4294967296).toNat < 256 ^ 4 / 2) := by norm_num; omega
  have hi : ((i + 4294967296).toNat : Int) - 256 ^ 4 = i := by norm_num; omega
  rw [parseF]
  norm_num [parseIntBE, hr, hv, hge] at hi ⊢
  omega

theorem parseF_int64 (fuel : Nat) (i : Int) (b : List Nat)
    (h1 : -9223372036854775808 ≤ i) (h2 : i < -2147483648) :
    parseF (fuel + 1)
        (0xd3 :: (beBytes 8 (i + 18446744073709551616).toNat ++ b)) =
      some (.int i, b) := by
  have hr := readN_append 8 (beBytes 8 (i + 18446744073709551616).toNat) b
    (length_beBytes 8 _)
  have hv := beVal_beBytes_eq 8 (i + 18446744073709551616).toNat (by norm_num; omega)
  have hge : ¬ ((i + 18446744073709551616).toNat < 256 ^ 8 / 2) := by norm_num; omega
  have hi : ((i + 18446744073709551616).toNat : Int) - 256 ^ 8 = i := by norm_num; omega
  rw [parseF]
  norm_num [parseIntBE, hr, hv, hge] at hi ⊢
  omega

theorem parseF_fixstr (fuel : Nat) (s b : List Nat) (h : s.length < 32) :
    parseF (fuel + 1) ((160 + s.length) :: (s ++ b)) = some (.str s, b) := by
  have hc1 : ¬ (160 + s.length < 128) := by omega
  have hc2 : ¬ (160 + s.length < 144) := by omega
  have hc3 : ¬ (160 + s.length < 160) := by omega
  have hc4 : 160 + s.length < 192 := by omega
  rw [parseF]
  rw [if_neg hc1, if_neg hc2, if_neg hc3, if_pos hc4, Nat.add_sub_cancel_left,
    readN_append s.length s b rfl, strResult]

theorem parseF_str8 (fuel : Nat) (s b : List Nat) :
    parseF (fuel + 1) (0xd9 :: s.length :: (s ++ b)) = some (.str s, b) := by
  rw [parseF]
  norm_num [parseStr8, readN_append s.length s b rfl, strResult]

theorem parseF_str16 (fuel : Nat) (s b : List Nat) (h : s.length < 65536) :
    parseF (fuel + 1) (0xda :: (beBytes 2 s.length ++ (s ++ b))) =
      some (.str s, b) := by
  have hr := readN_append 2 (beBytes 2 s.length) (s ++ b) (length_beBytes 2 s.length)
  have hv := beVal_beBytes_eq 2 s.length (by norm_num; omega)
  rw [parseF]
  norm_num [parseStrBE, hr, hv, readN_append s.length s b rfl, strResult]

theorem parseF_str32 (fuel : Nat) (s b : List Nat) (h : s.length < 4294967296) :
    parseF (fuel + 1) (0xdb :: (beBytes 4 s.length ++ (s ++ b))) =
      some (.str s, b) := by
  have hr := readN_append 4 (beBytes 4 s.length) (s ++ b) (length_beBytes 4 s.length)
  have hv := beVal_beBytes_eq 4 s.length (by norm_num; omega)
  rw [parseF]
  norm_num [parseStrBE, hr, hv, readN_append s.length s b rfl, strResult]

theorem parseF_bin8 (fuel : Nat) (s b : List Nat) :
    parseF (fuel + 1) (0xc4 :: s.length :: (s ++ b)) = some (.bin s, b) := by
  rw [parseF]
  norm_num [parseBin8, readN_append s.length s b rfl, binResult]

theorem parseF_bin16 (fuel : Nat) (s b : List Nat) (h : s.length < 65536) :
    parseF (fuel + 1) (0xc5 :: (beBytes 2 s.length ++ (s ++ b))) =
      some (.bin s, b) := by
  have hr := readN_append 2 (beBytes 2 s.length) (s ++ b) (length_beBytes 2 s.length)
  have hv := beVal_beBytes_eq 2 s.length (by norm_num; omega)
  rw [parseF]
  norm_num [parseBinBE, hr, hv, readN_append s.length s b rfl, binResult]

theorem parseF_bin32 (fuel : Nat) (s b : List Nat) (h : s.length < 4294967296) :
    parseF (fuel + 1) (0xc6 :: (beBytes 4 s.length ++ (s ++ b))) =
      some (.bin s, b) := by
  have hr := readN_append 4 (beBytes 4 s.length) (s ++ b) (length_beBytes 4 s.length)
  have hv := beVal_beBytes_eq 4 s.length (by norm_num; omega)
  rw [parseF]
  norm_num [parseBinBE, hr, hv, readN_append s.length s b rfl, binResult]

theorem parseF_fixarr (fuel n : Nat) (b : List Nat) (h : n < 16) :
    parseF (fuel + 1) ((144 + n) :: b) = arrResult (parseArrF fuel n b) := by
  have hc1 : ¬ (144 + n < 128) := by omega
  have hc2 : ¬ (144 + n < 144) := by omega
  have hc3 : 144 + n < 160 := by omega
  rw [parseF]
  rw [if_neg hc1, if_neg hc2, if_pos hc3, Nat.add_sub_cancel_left]

theorem parseF_arr16 (fuel n : Nat) (b : List Nat) (h : n < 65536) :
    parseF (fuel + 1) (0xdc :: (beBytes 2 n ++ b)) =
      arrResult (parseArrF fuel n b) := by
  have hr := readN_append 2 (beBytes 2 n) b (length_beBytes 2 n)
  have hv := beVal_beBytes_eq 2 n (by norm_num; omega)
  rw [parseF]
  norm_num [hr, hv]

theorem parseF_arr32 (fuel n : Nat) (b : List Nat) (h : n < 4294967296) :
    parseF (fuel + 1) (0xdd :: (beBytes 4 n ++ b)) =
      arrResult (parseArrF fuel n b) := by
  have hr := readN_append 4 (beBytes 4 n) b (length_beBytes 4 n)
  have hv := beVal_beBytes_eq 4 n (by norm_num; omega)
  rw [parseF]
  norm_num [hr, hv]

theorem parseF_fixmap (fuel n : Nat) (b : List Nat) (h : n < 16) :
    parseF (fuel + 1) ((128 + n) :: b) = mapResult (parseMapF fuel n b) := by
  have hc1 : ¬ (128 + n < 128) := by omega
  have hc2 : 128 + n < 144 := by omega
  rw [parseF]
  rw [if_neg hc1, if_pos hc2, Nat.add_sub_cancel_left]

theorem parseF_map16 (fuel n : Nat) (b : List Nat) (h : n < 65536) :
    parseF (fuel + 1) (0xde :: (beBytes 2 n ++ b)) =
      mapResult (parseMapF fuel n b) := by
  have hr := readN_append 2 (beBytes 2 n) b (length_beBytes 2 n)
  have hv := beVal_beBytes_eq 2 n (by norm_num; omega)
  rw [parseF]
  norm_num [hr, hv]

theorem parseF_map32 (fuel n : Nat) (b : List Nat) (h : n < 4294967296) :
    parseF (fuel + 1) (0xdf :: (beBytes 4 n ++ b)) =
      mapResult (parseMapF fuel n b) := by
  have hr := readN_append 4 (beBytes 4 n) b (length_beBytes 4 n)
  have hv := beVal_beBytes_eq 4 n (by norm_num; omega)
  rw [parseF]
  norm_num [hr, hv]


/-! Every well-formed value occupies at least one byte per node, so the length
of its encoding bounds the parser fuel it needs. -/

mutual

theorem msgSize_le_encLength (v : MsgVal) (h : v.wf = true) :
    v.size ≤ (msgEncode v).length := by
  cases v with
  | nil => simp [MsgVal.size, msgEncode]
  | bool b => cases b <;> simp [MsgVal.size, msgEncode]
  | int i =>
    simp only [MsgVal.wf, decide_eq_true_eq] at h
    simp only [MsgVal.size, msgEncode, encInt]
    split_ifs <;> simp [length_beBytes] <;> omega
  | str s =>
    simp only [MsgVal.size, msgEncode, encStrHeader]
    split_ifs <;> simp [length_beBytes]
  | bin s =>
    simp only [MsgVal.size, msgEncode, encBinHeader]
    split_ifs <;> simp [length_beBytes]
  | arr vs =>
    simp only [MsgVal.wf, Bool.and_eq_true] at h
    have h2 := msgSizeList_le_encLength vs h.2
    have hh : 1 ≤ (encArrHeader vs.length).length := by
      rw [encArrHeader]
      split_ifs <;> simp [length_beBytes]
    simp only [MsgVal.size, msgEncode, List.length_append]
    omega
  | map ps =>
    simp only [MsgVal.wf, Bool.and_eq_true] at h
    have h2 := msgSizePairs_le_encLength ps h.2
    have hh : 1 ≤ (encMapHeader ps.length).length := by
      rw [encMapHeader]
      split_ifs <;> simp [length_beBytes]
    simp only [MsgVal.size, msgEncode, List.length_append]
    omega

theorem msgSizeList_le_encLength (vs : List MsgVal) (h : msgWfList vs = true) :
    msgSizeList vs ≤ (msgEncodeList vs).length := by
  cases vs with
  | nil => simp [msgSizeList, msgEncodeList]
  | cons v vs =>
    rw [msgWfList, Bool.and_eq_true] at h
    have h1 := msgSize_le_encLength v h.1
    have h2 := msgSizeList_le_encLength vs h.2
    simp only [msgSizeList, msgEncodeList, List.length_append]
    omega

theorem msgSizePairs_le_encLength (ps : List (MsgVal × MsgVal))
    (h : msgWfPairs ps = true) : msgSizePairs ps ≤ (msgEncodePairs ps).length := by
  cases ps with
  | nil => simp [msgSizePairs, msgEncodePairs]
  | cons p ps =>
    match p with
    | (k, v) =>
      rw [msgWfPairs, Bool.and_eq_true, Bool.and_eq_true] at h
      have h1 := msgSize_le_encLength k h.1.1
      have h2 := msgSize_le_encLength v h.1.2
      have h3 := msgSizePairs_le_encLength ps h.2
      simp only [msgSizePairs, msgEncodePairs, List.length_append]
      omega

end

/-- Parsing the canonical encoding of a well-formed 64-bit integer. -/
theorem parseF_encInt (fuel : Nat) (i : Int) (rest : List Nat)
    (h1 : -9223372036854775808 ≤ i) (h2 : i < 18446744073709551616) :
    parseF (fuel + 1) (encInt i ++ rest) = some (.int i, rest) := by
  rcases le_or_lt 0 i with hpos | hneg
  · have ht : (i.toNat : Int) = i := Int.toNat_of_nonneg hpos
    rw [encInt, if_pos hpos]
    by_cases hb1 : i.toNat < 128
    · rw [if_pos hb1]
      simpa [ht] using parseF_fixint fuel i.toNat rest hb1
    · rw [if_neg hb1]
      by_cases hb2 : i.toNat < 256
      · rw [if_pos hb2]
        simpa [ht] using parseF_uint8 fuel i.toNat rest
      · rw [if_neg hb2]
        by_cases hb3 : i.toNat < 65536
        · rw [if_pos hb3]
          simpa [ht] using parseF_uint16 fuel i.toNat rest hb3
        · rw [if_neg hb3]
          by_cases hb4 : i.toNat < 4294967296
          · rw [if_pos hb4]
            simpa [ht] using parseF_uint32 fuel i.toNat rest hb4
          · rw [if_neg hb4]
            have hb5 : i.toNat < 18446744073709551616 := by omega
            rw [if_pos hb5]
            simpa [ht] using parseF_uint64 fuel i.toNat rest hb5
  · rw [encInt, if_neg (by omega)]
    by_cases hb1 : -32 ≤ i
    · rw [if_pos hb1]
      simpa using parseF_negfixint fuel i rest hb1 hneg
    · rw [if_neg hb1]
      by_cases hb2 : -128 ≤ i
      · rw [if_pos hb2]
        simpa using parseF_int8 fuel i rest hb2 (by omega)
      · rw [if_neg hb2]
        by_cases hb3 : -32768 ≤ i
        · rw [if_pos hb3]
          simpa using parseF_int16 fuel i rest hb3 (by omega)
        · rw [if_neg hb3]
          by_cases hb4 : -2147483648 ≤ i
          · rw [if_pos hb4]
            simpa using parseF_int32 fuel i rest hb4 (by omega)
          · rw [if_neg hb4]
            rw [if_pos h1]
            simpa using parseF_int64 fuel i rest h1 (by omega)

/-- Parsing the canonical encoding of a string whose length fits 32 bits. -/
theorem parseF_encStr (fuel : Nat) (s rest : List Nat)
    (h : s.length < 4294967296) :
    parseF (fuel + 1) ((encStrHeader s.length ++ s) ++ rest) =
      some (.str s, rest) := by
  rw [encStrHeader]
  by_cases h1 : s.length < 32
  · rw [if_pos h1]
    simpa [Nat.add_comm] using parseF_fixstr fuel s rest h1
  · rw [if_neg h1]
    by_cases h2 : s.length < 256
    · rw [if_pos h2]
      simpa using parseF_str8 fuel s rest
    · rw [if_neg h2]
      by_cases h3 : s.length < 65536
      · rw [if_pos h3]
        simpa using parseF_str16 fuel s rest h3
      · rw [if_neg h3]
        simpa using parseF_str32 fuel s rest h

/-- Parsing the canonical encoding of a byte string whose length fits 32 bits. -/
theorem parseF_encBin (fuel : Nat) (s rest : List Nat)
    (h : s.length < 4294967296) :
    parseF (fuel + 1) ((encBinHeader s.length ++ s) ++ rest) =
      some (.bin s, rest) := by
  rw [encBinHeader]
  by_cases h1 : s.length < 256
  · rw [if_pos h1]
    simpa using parseF_bin8 fuel s rest
  · rw [if_neg h1]
    by_cases h2 : s.length < 65536
    · rw [if_pos h2]
      simpa using parseF_bin16 fuel s rest h2
    · rw [if_neg h2]
      simpa using parseF_bin32 fuel s rest h

/-- The parser inverts the encoder on every well-formed value, consuming
exactly the encoding, provided the fuel covers the value's node count. -/
theorem parseF_msgEncode (fuel : Nat) :
    ∀ (v : MsgVal) (rest : List Nat), v.wf = true → v.size ≤ fuel →
      parseF fuel (msgEncode v ++ rest) = some (v, rest) := by
  induction fuel with
  | zero =>
    intro v rest _ hsize
    have := size_pos v
    omega
  | succ fuel ih =>
    have harr : ∀ (vs : List MsgVal) (rest : List Nat), msgWfList vs = true →
        msgSizeList vs ≤ fuel →
        parseArrF fuel vs.length (msgEncodeList vs ++ rest) = some (vs, rest) := by
      intro vs
      induction vs with
      | nil =>
        intro rest _ _
        simp [msgEncodeList, parseArrF]
      | cons v vs ihvs =>
        intro rest hwf hsz
        rw [msgWfList, Bool.and_eq_true] at hwf
        rw [msgSizeList] at hsz
        have hv1 := size_pos v
        have h1 : parseF fuel (msgEncode v ++ (msgEncodeList vs ++ rest)) =
            some (v, msgEncodeList vs ++ rest) :=
          ih v _ hwf.1 (by omega)
        rw [msgEncodeList, List.append_assoc, List.length_cons, parseArrF, h1]
        simp only [ihvs rest hwf.2 (by omega)]
    have hmap : ∀ (ps : List (MsgVal × MsgVal)) (rest : List Nat),
        msgWfPairs ps = true → msgSizePairs ps ≤ fuel →
        parseMapF fuel ps.length (msgEncodePairs ps ++ rest) = some (ps, rest) := by
      intro ps
      induction ps with
      | nil =>
        intro rest _ _
        simp [msgEncodePairs, parseMapF]
      | cons p ps ihps =>
        match p with
        | (k, v) =>
          intro rest hwf hsz
          rw [msgWfPairs, Bool.and_eq_true, Bool.and_eq_true] at hwf
          rw [msgSizePairs] at hsz
          have hk1 := size_pos k
          have hv1 := size_pos v
          have h1 : parseF fuel
              (msgEncode k ++ (msgEncode v ++ (msgEncodePairs ps ++ rest))) =
              some (k, msgEncode v ++ (msgEncodePairs ps ++ rest)) :=
            ih k _ hwf.1.1 (by omega)
          have h2 : parseF fuel (msgEncode v ++ (msgEncodePairs ps ++ rest)) =
              some (v, msgEncodePairs ps ++ rest) :=
            ih v _ hwf.1.2 (by omega)
          rw [msgEncodePairs, List.append_assoc, List.append_assoc,
            List.length_cons, parseMapF, h1]
          simp only [h2, ihps rest hwf.2 (by omega)]
    intro v rest hwf hsize
    cases v with
    | nil => simpa [msgEncode] using parseF_nil fuel rest
    | bool b =>
      cases b
      · simpa [msgEncode] using parseF_false fuel rest
      · simpa [msgEncode] using parseF_true fuel rest
    | int i =>
      simp only [MsgVal.wf, decide_eq_true_eq] at hwf
      simpa [msgEncode] using parseF_encInt fuel i rest hwf.1 hwf.2
    | str s =>
      simp only [MsgVal.wf, decide_eq_true_eq] at hwf
      simpa [msgEncode] using parseF_encStr fuel s rest hwf
    | bin s =>
      simp only [MsgVal.wf, decide_eq_true_eq] at hwf
      simpa [msgEncode] using parseF_encBin fuel s rest hwf
    | arr vs =>
      simp only [MsgVal.wf, Bool.and_eq_true, decide_eq_true_eq] at hwf
      simp only [MsgVal.size] at hsize
      have hvs := harr vs rest hwf.2 (by omega)
      rw [msgEncode, encArrHeader]
      by_cases h1 : vs.length < 16
      · rw [if_pos h1]
        simp only [List.singleton_append, List.cons_append, List.append_assoc,
          List.nil_append]
        rw [parseF_fixarr fuel vs.length (msgEncodeList vs ++ rest) h1, hvs,
          arrResult]
      · rw [if_neg h1]
        by_cases h2 : vs.length < 65536
        · rw [if_pos h2]
          simp only [List.cons_append, List.append_assoc]
          rw [parseF_arr16 fuel vs.length (msgEncodeList vs ++ rest) h2, hvs,
            arrResult]
        · rw [if_neg h2]
          simp only [List.cons_append, List.append_assoc]
          rw [parseF_arr32 fuel vs.length (msgEncodeList vs ++ rest) hwf.1, hvs,
            arrResult]
    | map ps =>
      simp only [MsgVal.wf, Bool.and_eq_true, decide_eq_true_eq] at hwf
      simp only [MsgVal.size] at hsize
      have hps := hmap ps rest hwf.2 (by omega)
      rw [msgEncode, encMapHeader]
      by_cases h1 : ps.length < 16
      · rw [if_pos h1]
        simp only [List.singleton_append, List.cons_append, List.append_assoc,
          List.nil_append]
        rw [parseF_fixmap fuel ps.length (msgEncodePairs ps ++ rest) h1, hps,
          mapResult]
      · rw [if_neg h1]
        by_cases h2 : ps.length < 65536
        · rw [if_pos h2]
          simp only [List.cons_append, List.append_assoc]
          rw [parseF_map16 fuel ps.length (msgEncodePairs ps ++ rest) h2, hps,
            mapResult]
        · rw [if_neg h2]
          simp only [List.cons_append, List.append_assoc]
          rw [parseF_map32 fuel ps.length (msgEncodePairs ps ++ rest) hwf.1, hps,
            mapResult]

/-! The inbound envelope, from src/server/swill/_protocol.py. The msgspec
Struct `EncapsulatedRequest(EncapsulatedMessage)` has fields, in declaration
order, `seq: int`, `data: Raw`, `rpc: str`, `type: RequestType = MESSAGE`,
`metadata: Optional[Metadata] = None`, and is declared `array_like=True,
omit_defaults=True`: it travels as a fixed-position array whose trailing
defaulted fields are omitted. `data` is `msgspec.Raw`: on encode the raw bytes
are spliced in unchanged, on decode the field captures exactly the bytes of
that element. -/

structure EncapsulatedRequest where
  seq : Int
  data : List Nat
  rpc : List Nat
  rtype : RequestType
  metadata : Option (List (List Nat × MsgVal))

/-- A metadata mapping as the msgpack value msgspec encodes it to. -/
def metadataVal (m : List (List Nat × MsgVal)) : MsgVal :=
  .map (m.map (fun p => (.str p.1, p.2)))

/-- The msgspec msgpack encoding of an `EncapsulatedRequest`: a fixed-position
array `[seq, data, rpc, type, metadata]` whose trailing run of
defaulted fields (`type=MESSAGE`, `metadata=None`) is omitted, `data` spliced
in raw. -/
def msgspecEncodeRequest (e : EncapsulatedRequest) : List Nat :=
  let fields3 := msgEncode (.int e.seq) ++ e.data ++ msgEncode (.str e.rpc)
  match e.metadata with
  | some m =>
    0x95 :: (fields3 ++ msgEncode (.int (e.rtype.toNat : Int)) ++
      msgEncode (metadataVal m))
  | none =>
    if e.rtype = .message then 0x93 :: fields3
    else 0x94 :: (fields3 ++ msgEncode (.int (e.rtype.toNat : Int)))

/-- Read a msgpack array header (fixarray, array 16 or array 32). -/
def parseArrHeader (b : List Nat) : Option (Nat × List Nat) :=
  match b with
  | [] => none
  | c :: b1 =>
    if 0x90 ≤ c ∧ c < 0xa0 then some (c - 0x90, b1)
    else if c = 0xdc then
      match readN 2 b1 with
      | some (lb, b2) => some (beVal lb, b2)
      | none => none
    else if c = 0xdd then
      match readN 4 b1 with
      | some (lb, b2) => some (beVal lb, b2)
      | none => none
    else none

/-- Interpret a parsed msgpack map as `Dict[str, Any]` metadata: every key
must be a string. -/
def decodeMetadataEntries :
    List (MsgVal × MsgVal) → Option (List (List Nat × MsgVal))
  | [] => some []
  | (k, v) :: ps =>
    match k with
    | .str s =>
      match decodeMetadataEntries ps with
      | some rest => some ((s, v) :: rest)
      | none => none
    | _ => none

/-- Embeds `deserialize_encapsulated_request`
(src/server/swill/_serialize.py lines 20-25): the msgspec typed decode of an
`EncapsulatedRequest`. The envelope must be an array of 3 to 5 elements;
`seq` must be an integer, `data` captures the raw bytes of its element, `rpc`
must be a string, a present `type` must be a RequestType value, a present
`metadata` must be nil or a string-keyed map, and no bytes may trail the
envelope. A failure returns `none`, standing for the DeserializationError the
Python raises. -/
def deserialize_encapsulated_request (b : List Nat) :
    Option EncapsulatedRequest :=
  match parseArrHeader b with
  | none => none
  | some (n, b1) =>
    if 3 ≤ n ∧ n ≤ 5 then
      match parseF b.length b1 with
      | some (.int seq, b2) =>
        match parseF b.length b2 with
        | some (_, b3) =>
          let dataBytes := b2.take (b2.length - b3.length)
          match parseF b.length b3 with
          | some (.str rpc, b4) =>
            if n = 3 then
              if b4 = [] then
                some { seq := seq, data := dataBytes, rpc := rpc,
                       rtype := .message, metadata := none }
              else none
            else
              match parseF b.length b4 with
              | some (.int t, b5) =>
                if 0 ≤ t then
                  match RequestType.ofNat? t.toNat with
                  | some rt =>
                    if n = 4 then
                      if b5 = [] then
                        some { seq := seq, data := dataBytes, rpc := rpc,
                               rtype := rt, metadata := none }
                      else none
                    else
                      match parseF b.length b5 with
                      | some (.nil, b6) =>
                        if b6 = [] then
                          some { seq := seq, data := dataBytes, rpc := rpc,
                                 rtype := rt, metadata := none }
                        else none
                      | some (.map ps, b6) =>
                        match decodeMetadataEntries ps with
                        | some m =>
                          if b6 = [] then
                            some { seq := seq, data := dataBytes, rpc := rpc,
                                   rtype := rt, metadata := some m }
                          else none
                        | none => none
                      | _ => none
                  | none => none
                else none
              | _ => none
          | _ => none
        | none => none
      | _ => none
    else none

theorem decodeMetadataEntries_metadataVal (m : List (List Nat × MsgVal)) :
    decodeMetadataEntries (m.map (fun p => (.str p.1, p.2))) = some m := by
  induction m with
  | nil => rfl
  | cons p m ihm =>
    match p with
    | (k, v) => simp [decodeMetadataEntries, ihm]

theorem ofNat?_toNat (rt : RequestType) :
    RequestType.ofNat? rt.toNat = some rt := by
  cases rt <;> rfl

theorem msgspecEncodeRequest_typed (seq : Int) (data rpc : List Nat)
    (rtype : RequestType) (h : ¬ rtype = .message) :
    msgspecEncodeRequest ⟨seq, data, rpc, rtype, none⟩ =
      0x94 :: (msgEncode (.int seq) ++ data ++ msgEncode (.str rpc) ++
        msgEncode (.int (rtype.toNat : Int))) := by
  simp only [msgspecEncodeRequest, if_neg h]

/-- C2: for every EncapsulatedRequest envelope value (any 64-bit seq, raw
data bytes holding the encoding of some msgpack value, rpc name, request
type, and optional metadata with string keys), msgspec-encoding the envelope
and then decoding the bytes with `deserialize_encapsulated_request` returns a
value equal to the original; the omitted defaulted tail fields decode back to
their defaults (type=MESSAGE, metadata=None). -/
theorem c2_envelope_roundtrip (e : EncapsulatedRequest) (w : MsgVal)
    (hdata : e.data = msgEncode w) (hw : w.wf = true)
    (hseq1 : -9223372036854775808 ≤ e.seq)
    (hseq2 : e.seq < 18446744073709551616)
    (hrpc : e.rpc.length < 4294967296)
    (hmeta : ∀ m, e.metadata = some m → (metadataVal m).wf = true) :
    deserialize_encapsulated_request (msgspecEncodeRequest e) = some e := by
  obtain ⟨seq, data, rpc, rtype, metadata⟩ := e
  simp only at hdata hseq1 hseq2 hrpc hmeta
  subst hdata
  have hwfseq : (MsgVal.int seq).wf = true := by
    simp only [MsgVal.wf, decide_eq_true_eq]
    exact ⟨hseq1, hseq2⟩
  have hwfrpc : (MsgVal.str rpc).wf = true := by
    simp only [MsgVal.wf, decide_eq_true_eq]
    exact hrpc
  have hszseq : (MsgVal.int seq).size = 1 := by simp [MsgVal.size]
  have hszrpc : (MsgVal.str rpc).size = 1 := by simp [MsgVal.size]
  have hwD := msgSize_le_encLength w hw
  cases metadata with
  | none =>
    rcases eq_or_ne rtype .message with hmsg | hmsg
    · subst hmsg
      rw [show msgspecEncodeRequest ⟨seq, msgEncode w, rpc, .message, none⟩ =
          0x93 :: (msgEncode (.int seq) ++ msgEncode w ++ msgEncode (.str rpc))
        from rfl]
      have hH : parseArrHeader
          (0x93 :: (msgEncode (.int seq) ++ (msgEncode w ++ msgEncode (.str rpc)))) =
          some (3, msgEncode (.int seq) ++ (msgEncode w ++ msgEncode (.str rpc))) := rfl
      have hfuel1 : 1 ≤ (msgEncode (.int seq) ++
          (msgEncode w ++ msgEncode (.str rpc))).length + 1 := by omega
      have hA : parseF
          ((msgEncode (.int seq) ++ (msgEncode w ++ msgEncode (.str rpc))).length + 1)
          (msgEncode (.int seq) ++ (msgEncode w ++ msgEncode (.str rpc))) =
          some (.int seq, msgEncode w ++ msgEncode (.str rpc)) :=
        parseF_msgEncode _ (.int seq) _ hwfseq (by omega)
      have hD : parseF
          ((msgEncode (.int seq) ++ (msgEncode w ++ msgEncode (.str rpc))).length + 1)
          (msgEncode w ++ msgEncode (.str rpc)) =
          some (w, msgEncode (.str rpc)) :=
        parseF_msgEncode _ w _ hw
          (by simp only [List.length_append]; omega)
      have hR : parseF
          ((msgEncode (.int seq) ++ (msgEncode w ++ msgEncode (.str rpc))).length + 1)
          (msgEncode (.str rpc)) = some (.str rpc, []) := by
        have := parseF_msgEncode
          ((msgEncode (.int seq) ++ (msgEncode w ++ msgEncode (.str rpc))).length + 1)
          (.str rpc) [] hwfrpc (by omega)
        simpa using this
      have hTake : (msgEncode w ++ msgEncode (.str rpc)).take
          ((msgEncode w ++ msgEncode (.str rpc)).length -
            (msgEncode (.str rpc)).length) = msgEncode w := by
        rw [List.length_append, Nat.add_sub_cancel, List.take_left]
      simp only [deserialize_encapsulated_request, List.append_assoc,
        List.length_cons, hH, hA, hD, hR, hTake]
      norm_num
    · rw [msgspecEncodeRequest_typed seq (msgEncode w) rpc rtype hmsg]
      have hwft : (MsgVal.int (rtype.toNat : Int)).wf = true := by
        cases rtype <;> simp [MsgVal.wf, RequestType.toNat]
      have hH : parseArrHeader
          (0x94 :: (msgEncode (.int seq) ++ (msgEncode w ++
            (msgEncode (.str rpc) ++ msgEncode (.int (rtype.toNat : Int)))))) =
          some (4, msgEncode (.int seq) ++ (msgEncode w ++
            (msgEncode (.str rpc) ++ msgEncode (.int (rtype.toNat : Int))))) := rfl
      have hA : parseF
          ((msgEncode (.int seq) ++ (msgEncode w ++
            (msgEncode (.str rpc) ++ msgEncode (.int (rtype.toNat : Int))))).length + 1)
          (msgEncode (.int seq) ++ (msgEncode w ++
            (msgEncode (.str rpc) ++ msgEncode (.int (rtype.toNat : Int))))) =
          some (.int seq, msgEncode w ++
            (msgEncode (.str rpc) ++ msgEncode (.int (rtype.toNat : Int)))) :=
        parseF_msgEncode _ (.int seq) _ hwfseq (by omega)
      have hD : parseF
          ((msgEncode (.int seq) ++ (msgEncode w ++
            (msgEncode (.str rpc) ++ msgEncode (.int (rtype.toNat : Int))))).length + 1)
          (msgEncode w ++
            (msgEncode (.str rpc) ++ msgEncode (.int (rtype.toNat : Int)))) =
          some (w, msgEncode (.str rpc) ++ msgEncode (.int (rtype.toNat : Int))) :=
        parseF_msgEncode _ w _ hw (by simp only [List.length_append]; omega)
      have hR : parseF
          ((msgEncode (.int seq) ++ (msgEncode w ++
            (msgEncode (.str rpc) ++ msgEncode (.int (rtype.toNat : Int))))).length + 1)
          (msgEncode (.str rpc) ++ msgEncode (.int (rtype.toNat : Int))) =
          some (.str rpc, msgEncode (.int (rtype.toNat : Int))) :=
        parseF_msgEncode _ (.str rpc) _ hwfrpc (by omega)
      have hT : parseF
          ((msgEncode (.int seq) ++ (msgEncode w ++
            (msgEncode (.str rpc) ++ msgEncode (.int (rtype.toNat : Int))))).length + 1)
          (msgEncode (.int (rtype.toNat : Int))) =
          some (.int (rtype.toNat : Int), []) := by
        have := parseF_msgEncode
          ((msgEncode (.int seq) ++ (msgEncode w ++
            (msgEncode (.str rpc) ++ msgEncode (.int (rtype.toNat : Int))))).length + 1)
          (.int (rtype.toNat : Int)) [] hwft (by simp [MsgVal.size])
        simpa using this
      have hTake : (msgEncode w ++
          (msgEncode (.str rpc) ++ msgEncode (.int (rtype.toNat : Int)))).take
          ((msgEncode w ++
            (msgEncode (.str rpc) ++ msgEncode (.int (rtype.toNat : Int)))).length -
            (msgEncode (.str rpc) ++ msgEncode (.int (rtype.toNat : Int))).length) =
          msgEncode w := by
        rw [List.length_append, Nat.add_sub_cancel, List.take_left]
      simp only [deserialize_encapsulated_request, List.append_assoc,
        List.length_cons, hH, hA, hD, hR, hT, hTake]
      norm_num [Int.toNat_ofNat, ofNat?_toNat]
  | some m =>
    have hwfm : (metadataVal m).wf = true := hmeta m rfl
    have hwM := msgSize_le_encLength (metadataVal m) hwfm
    have hwft : (MsgVal.int (rtype.toNat : Int)).wf = true := by
      cases rtype <;> simp [MsgVal.wf, RequestType.toNat]
    rw [show msgspecEncodeRequest ⟨seq, msgEncode w, rpc, rtype, some m⟩ =
        0x95 :: (msgEncode (.int seq) ++ msgEncode w ++ msgEncode (.str rpc) ++
          msgEncode (.int (rtype.toNat : Int)) ++ msgEncode (metadataVal m))
      from rfl]
    have hH : parseArrHeader
        (0x95 :: (msgEncode (.int seq) ++ (msgEncode w ++ (msgEncode (.str rpc) ++
          (msgEncode (.int (rtype.toNat : Int)) ++ msgEncode (metadataVal m)))))) =
        some (5, msgEncode (.int seq) ++ (msgEncode w ++ (msgEncode (.str rpc) ++
          (msgEncode (.int (rtype.toNat : Int)) ++ msgEncode (metadataVal m))))) := rfl
    have hA : parseF
        ((msgEncode (.int seq) ++ (msgEncode w ++ (msgEncode (.str rpc) ++
          (msgEncode (.int (rtype.toNat : Int)) ++
            msgEncode (metadataVal m))))).length + 1)
        (msgEncode (.int seq) ++ (msgEncode w ++ (msgEncode (.str rpc) ++
          (msgEncode (.int (rtype.toNat : Int)) ++ msgEncode (metadataVal m))))) =
        some (.int seq, msgEncode w ++ (msgEncode (.str rpc) ++
          (msgEncode (.int (rtype.toNat : Int)) ++ msgEncode (metadataVal m)))) :=
      parseF_msgEncode _ (.int seq) _ hwfseq (by omega)
    have hD : parseF
        ((msgEncode (.int seq) ++ (msgEncode w ++ (msgEncode (.str rpc) ++
          (msgEncode (.int (rtype.toNat : Int)) ++
            msgEncode (metadataVal m))))).length + 1)
        (msgEncode w ++ (msgEncode (.str rpc) ++
          (msgEncode (.int (rtype.toNat : Int)) ++ msgEncode (metadataVal m)))) =
        some (w, msgEncode (.str rpc) ++
          (msgEncode (.int (rtype.toNat : Int)) ++ msgEncode (metadataVal m))) :=
      parseF_msgEncode _ w _ hw (by simp only [List.length_append]; omega)
    have hR : parseF
        ((msgEncode (.int seq) ++ (msgEncode w ++ (msgEncode (.str rpc) ++
          (msgEncode (.int (rtype.toNat : Int)) ++
            msgEncode (metadataVal m))))).length + 1)
        (msgEncode (.str rpc) ++
          (msgEncode (.int (rtype.toNat : Int)) ++ msgEncode (metadataVal m))) =
        some (.str rpc, msgEncode (.int (rtype.toNat : Int)) ++
          msgEncode (metadataVal m)) :=
      parseF_msgEncode _ (.str rpc) _ hwfrpc (by omega)
    have hT : parseF
        ((msgEncode (.int seq) ++ (msgEncode w ++ (msgEncode (.str rpc) ++
          (msgEncode (.int (rtype.toNat : Int)) ++
            msgEncode (metadataVal m))))).length + 1)
        (msgEncode (.int (rtype.toNat : Int)) ++ msgEncode (metadataVal m)) =
        some (.int (rtype.toNat : Int), msgEncode (metadataVal m)) :=
      parseF_msgEncode _ (.int (rtype.toNat : Int)) _ hwft (by simp [MsgVal.size])
    have hM : parseF
        ((msgEncode (.int seq) ++ (msgEncode w ++ (msgEncode (.str rpc) ++
          (msgEncode (.int (rtype.toNat : Int)) ++
            msgEncode (metadataVal m))))).length + 1)
        (msgEncode (metadataVal m)) =
        some (.map (m.map (fun p => (.str p.1, p.2))), []) := by
      have := parseF_msgEncode
        ((msgEncode (.int seq) ++ (msgEncode w ++ (msgEncode (.str rpc) ++
          (msgEncode (.int (rtype.toNat : Int)) ++
            msgEncode (metadataVal m))))).length + 1)
        (metadataVal m) [] hwfm (by simp only [List.length_append]; omega)
      simpa [metadataVal] using this
    have hTake : (msgEncode w ++ (msgEncode (.str rpc) ++
        (msgEncode (.int (rtype.toNat : Int)) ++ msgEncode (metadataVal m)))).take
        ((msgEncode w ++ (msgEncode (.str rpc) ++
          (msgEncode (.int (rtype.toNat : Int)) ++
            msgEncode (metadataVal m)))).length -
          (msgEncode (.str rpc) ++ (msgEncode (.int (rtype.toNat : Int)) ++
            msgEncode (metadataVal m))).length) = msgEncode w := by
      rw [List.length_append, Nat.add_sub_cancel, List.take_left]
    simp only [deserialize_encapsulated_request, List.append_assoc,
      List.length_cons, hH, hA, hD, hR, hT, hM, hTake,
      decodeMetadataEntries_metadataVal]
    norm_num [Int.toNat_ofNat, ofNat?_toNat]

/-- C2 witness: the concrete envelope `seq=2, rpc="test" (UTF-8 bytes), data`
the 5-byte msgpack encoding of the string `DATA`, defaulted type and
metadata; encoding then decoding returns it unchanged, so `seq=2` and
`rpc="test"` come back with `type=MESSAGE` and `metadata=None`. -/
theorem c2_envelope_roundtrip_witness :
    (MsgVal.str [68, 65, 84, 65]).wf = true ∧
    msgEncode (MsgVal.str [68, 65, 84, 65]) = [164, 68, 65, 84, 65] ∧
    deserialize_encapsulated_request
      (msgspecEncodeRequest
        ⟨2, [164, 68, 65, 84, 65], [116, 101, 115, 116], .message, none⟩) =
      some ⟨2, [164, 68, 65, 84, 65], [116, 101, 115, 116], .message, none⟩ := by
  have hwf : (MsgVal.str [68, 65, 84, 65]).wf = true := by
    simp [MsgVal.wf]
  have henc : msgEncode (MsgVal.str [68, 65, 84, 65]) = [164, 68, 65, 84, 65] := by
    simp [msgEncode, encStrHeader]
  refine ⟨hwf, henc, ?_⟩
  exact c2_envelope_roundtrip
    ⟨2, [164, 68, 65, 84, 65], [116, 101, 115, 116], .message, none⟩
    (MsgVal.str [68, 65, 84, 65]) henc.symm hwf (by norm_num) (by norm_num)
    (by norm_num) (fun m h => Option.noConfusion h)

/-- C1: an inbound frame whose `(rpc, seq)` key has no live call and whose
type is MESSAGE, with an rpc absent from the handler registry, makes the
dispatcher emit exactly one outbound envelope: type=ERROR, code=NOT_FOUND
(404), same seq as the request; a CANCEL or END_OF_STREAM frame for an
unknown key emits no outbound frame at all. -/
theorem c1_unknown_key_routing (registry : List String)
    (live : List RequestReference) (env : RequestEnvelope)
    (hlive : (env.rpc, env.seq) ∉ live) :
    (env.rtype = .message → env.rpc ∉ registry →
      handle_request registry live env =
        ([serialize_error_response "No func was found to process this request"
            404 env.seq none],
         .newCallErrored)) ∧
    ((env.rtype = .cancel ∨ env.rtype = .endOfStream) →
      (handle_request registry live env).1 = []) := by
  constructor
  · intro hmsg hreg
    rw [handle_request, if_neg hlive, if_neg (by simp [hmsg]), if_neg hreg]
    rfl
  · intro hdrop
    rw [handle_request, if_neg hlive, if_pos hdrop]

/-- C1 witness: a MESSAGE frame for the unregistered rpc `nope` with seq 1,
while a different call `(add, 5)` is live, yields the single NOT_FOUND error
envelope; a CANCEL frame for the same unknown key yields nothing. -/
theorem c1_unknown_key_routing_witness :
    (("nope", (1 : Int)) ∉ ([("add", 5)] : List RequestReference)) ∧
    handle_request ["add"] [("add", 5)] ⟨1, "nope", .message⟩ =
      ([serialize_error_response "No func was found to process this request"
          404 1 none],
       .newCallErrored) ∧
    (handle_request ["add"] [("add", 5)] ⟨1, "nope", .cancel⟩).1 = [] :=
  ⟨by decide,
   (c1_unknown_key_routing ["add"] [("add", 5)] ⟨1, "nope", .message⟩
     (by decide)).1 rfl (by decide),
   (c1_unknown_key_routing ["add"] [("add", 5)] ⟨1, "nope", .cancel⟩
     (by decide)).2 (Or.inl rfl)⟩

/-- C10: exception dispatch matches on the exact class only — for every
raised exception whose precise class is not a key of the exception-handler
map (so in particular every proper subclass of Error, and the framework's
SwillRequestError and SwillResponseError), the BaseException catch-all runs
and the client receives ERROR(code=500, message "An internal server error
occurred"); the exception's own code and message are never sent. -/
theorem c10_exact_class_dispatch (e : PyExc) (seq : Int)
    (h1 : e.cls ≠ .baseException) (h2 : e.cls ≠ .handlerNotFound)
    (h3 : e.cls ≠ .error) :
    handle_exception e seq =
      serialize_error_response "An internal server error occurred" 500 seq none := by
  have hb1 : (e.cls == ExcClass.baseException) = false := by
    simp [h1]
  have hb2 : (e.cls == ExcClass.handlerNotFound) = false := by
    simp [h2]
  have hb3 : (e.cls == ExcClass.error) = false := by
    simp [h3]
  have hlookup : exceptionHandlers.lookup e.cls = none := by
    simp only [exceptionHandlers, List.lookup, hb1, hb2, hb3]
  rw [handle_exception, hlookup]
  rfl

/-- C10 witness: an instance of an Error subclass carrying code 403 and its
own message is answered with the generic 500 catch-all envelope. -/
theorem c10_exact_class_dispatch_witness :
    ((⟨.errSubclass 0, 403, "forbidden", none⟩ : PyExc).cls ≠ .baseException) ∧
    handle_exception ⟨.errSubclass 0, 403, "forbidden", none⟩ 9 =
      serialize_error_response "An internal server error occurred" 500 9 none :=
  ⟨by decide,
   c10_exact_class_dispatch ⟨.errSubclass 0, 403, "forbidden", none⟩ 9
     (by decide) (by decide) (by decide)⟩

/-- C3 (code bug evaluation): a SwillValidationError raised while handling a
frame is dispatched by exact class; its class is not a key of the
exception-handler map, so the catch-all answers ERROR(code=500, generic
message, no data) instead of the claimed ERROR(422) carrying the per-field
descriptor mapping — and the ErrorCode enum has no VALIDATION_ERROR member at
all, so the unregistered handle_validation_error would fail even if it were
wired up. -/
theorem c3_validation_error_surfaces_as_500 :
    handle_exception
      { cls := .swillValidationError, code := 422,
        message := "1 validation errors",
        data := some [("name", [.description "less than 5"])] } 7 =
      serialize_error_response "An internal server error occurred" 500 7 none ∧
    errorCodeMembers.lookup "VALIDATION_ERROR" = none ∧
    exceptionHandlers.lookup ExcClass.swillValidationError = none := by
  refine ⟨rfl, by decide, rfl⟩

/-- C9 (code bug evaluation): for a unary call whose handler raises
RequestCancelled, the dispatcher emits nothing when the call's cancelled flag
is set; but when the flag is not set, the Python local `result` is referenced
while unbound, and the resulting UnboundLocalError reaches the catch-all,
which emits one ERROR(500) frame — so an outbound frame is produced on the
wire, contradicting the claim's "whether or not the cancelled flag was set". -/
theorem c9_request_cancelled_unary :
    unaryCallFrames .raisesRequestCancelled true 3 ResponseState.initial = [] ∧
    unaryCallFrames .raisesRequestCancelled false 3 ResponseState.initial =
      [serialize_error_response "An internal server error occurred" 500 3 none] := by
  exact ⟨rfl, rfl⟩

/-- C4 (code bug evaluation): for every offered-subprotocol list not
containing `swill/1`, the handshake raises CloseConnection(406), but the
except-branch dereferences `connection_data.http_response` — an attribute
`ConnectionData.__init__` never defines — so the handshake dies with an
uncaught AttributeError after zero transport writes: neither the claimed
`http.response.start` 406 / `http.response.body` pair nor any
`websocket.accept` is ever sent. -/
theorem c4_handshake_refusal_crashes (offered : List String)
    (h : "swill/1" ∉ offered) :
    websocket_handshake offered = ([], .uncaught "AttributeError") := by
  rw [websocket_handshake, choose_subprotocol, if_neg h]
  rfl

/-- C4 witness: a client offering only `graphql-ws` gets no transport write
at all; the handshake ends in the uncaught AttributeError. -/
theorem c4_handshake_refusal_crashes_witness :
    ("swill/1" ∉ ["graphql-ws"]) ∧
    websocket_handshake ["graphql-ws"] = ([], .uncaught "AttributeError") :=
  ⟨by decide, c4_handshake_refusal_crashes ["graphql-ws"] (by decide)⟩

/-- C5 counterexample: enqueue the single item 1, then close; the next
iteration step raises end-of-iteration immediately even though the item is
still queued, so iteration does not observe every enqueued item before the
iterator ends. -/
theorem c5_counterexample :
    drainQueue 2 (((⟨[], false, false⟩ : StreamingQueueState Nat).add 1).close) =
      ([], .stopAsyncIteration) ∧
    (((⟨[], false, false⟩ : StreamingQueueState Nat).add 1).close).queue = [1] ∧
    (drainQueue 2
        (((⟨[], false, false⟩ : StreamingQueueState Nat).add 1).close)).1 ≠
      (((⟨[], false, false⟩ : StreamingQueueState Nat).add 1).close).queue := by
  exact ⟨rfl, rfl, by decide⟩

/-- C5 (amended): once close has been called, the next iteration step of the
streaming queue raises end-of-iteration immediately and queued items are
discarded, whatever the cancel flag; after cancel (without close), the next
iteration step raises RequestCancelled even if items remain queued. -/
theorem c5_close_discards_cancel_raises {α : Type} :
    (∀ (xs : List α) (c : Bool) (fuel : Nat),
      drainQueue (fuel + 1) ⟨xs, true, c⟩ = ([], .stopAsyncIteration)) ∧
    (∀ (xs : List α),
      (StreamingQueueState.anext ⟨xs, false, true⟩).1 = .requestCancelled) := by
  constructor
  · intro xs c fuel
    simp [drainQueue, StreamingQueueState.anext]
  · intro xs
    simp [StreamingQueueState.anext]

/-- C6: the leading-metadata slot is one-shot — consuming it returns the
stored metadata the first time and marks it sent, every later consumption
returns nothing, and once sent (or consumed) both `set_leading_metadata` and
`send_leading_metadata` raise ResponseError; so at most one outbound frame of
a call can carry leading metadata. -/
theorem c6_leading_metadata_once (s : ResponseState) (seq : Int)
    (m : Metadata) (b : Bool) :
    (s.leadingMetadataSent = false →
      consume_leading_metadata s =
        (s.leadingMetadata, { s with leadingMetadataSent := true })) ∧
    (s.leadingMetadataSent = true → consume_leading_metadata s = (none, s)) ∧
    ((consume_leading_metadata s).2.leadingMetadataSent = true) ∧
    (consume_leading_metadata ((consume_leading_metadata s).2) =
      (none, (consume_leading_metadata s).2)) ∧
    (s.leadingMetadataSent = true →
      set_leading_metadata s seq m b = .error () ∧
      send_leading_metadata s seq = .error ()) := by
  refine ⟨?_, ?_, ?_, ?_, ?_⟩
  · intro h
    rw [consume_leading_metadata, if_neg (by simp [h])]
  · intro h
    rw [consume_leading_metadata, if_pos h]
  · rw [consume_leading_metadata]
    by_cases h : s.leadingMetadataSent
    · simp [h]
    · simp [h]
  · have hsent : (consume_leading_metadata s).2.leadingMetadataSent = true := by
      rw [consume_leading_metadata]
      by_cases h : s.leadingMetadataSent
      · simp [h]
      · simp [h]
    rw [consume_leading_metadata, if_pos hsent]
  · intro h
    constructor
    · rw [set_leading_metadata, if_pos h]
    · rw [send_leading_metadata, if_pos h]

/-- C6 witness: with stored metadata not yet sent, consumption returns it and
marks it sent; on an already-sent state consumption returns nothing, and both
setters raise ResponseError. -/
theorem c6_leading_metadata_once_witness :
    (consume_leading_metadata ⟨some [("k", 1)], false, none⟩ =
      (some [("k", 1)], ⟨some [("k", 1)], true, none⟩)) ∧
    (consume_leading_metadata ⟨some [("k", 1)], true, none⟩ =
      (none, ⟨some [("k", 1)], true, none⟩)) ∧
    set_leading_metadata ⟨some [("k", 1)], true, none⟩ 2 [("x", 2)] true =
      .error () ∧
    send_leading_metadata ⟨some [("k", 1)], true, none⟩ 2 = .error () :=
  ⟨(c6_leading_metadata_once ⟨some [("k", 1)], false, none⟩ 2 [("x", 2)] true).1
     rfl,
   (c6_leading_metadata_once ⟨some [("k", 1)], true, none⟩ 2 [("x", 2)] true).2.1
     rfl,
   ((c6_leading_metadata_once ⟨some [("k", 1)], true, none⟩ 2 [("x", 2)]
     true).2.2.2.2 rfl).1,
   ((c6_leading_metadata_once ⟨some [("k", 1)], true, none⟩ 2 [("x", 2)]
     true).2.2.2.2 rfl).2⟩

/-- C7 (code bug evaluation): a record with two independently failing
validators on fields `a` and `b`. The `break` on a failure leaves only the
innermost items loop, so even without `return_all_errors` the second
validator still runs and the single raised ValidationError's data mapping
contains both field keys — the same mapping the `return_all_errors` opt-in
produces, contradicting the claim that validation stops at the first failing
validator. -/
theorem c7_aggregation_ignores_opt_in :
    (validateStruct false
        [⟨["a"], false, true, fun _ => .error "bad a"⟩,
         ⟨["b"], false, true, fun _ => .error "bad b"⟩]
        (fun _ => .int 0) (fun _ => none) =
      .error [("a", [.description "bad a"]), ("b", [.description "bad b"])]) ∧
    (validateStruct true
        [⟨["a"], false, true, fun _ => .error "bad a"⟩,
         ⟨["b"], false, true, fun _ => .error "bad b"⟩]
        (fun _ => .int 0) (fun _ => none) =
      .error [("a", [.description "bad a"]), ("b", [.description "bad b"])]) := by
  exact ⟨rfl, rfl⟩

/-- C8 (code bug evaluation): the comparison boundaries of `_check_ge` and
`_check_gt` are swapped relative to the claim (and to their own error
messages): a value exactly equal to the Ge bound fails validation with the
message "less than b", and a value exactly equal to the Gt bound passes. -/
theorem c8_ge_gt_boundaries_swapped :
    (∀ b : Int, check_ge b b = .error ("less than " ++ toString b)) ∧
    (∀ b : Int, check_gt b b = .ok ()) := by
  constructor
  · intro b
    rw [check_ge, if_pos le_rfl]
  · intro b
    rw [check_gt, if_neg (lt_irrefl b)]

end Swill
